import Mathlib

/-!
# LCQ MCP protocol client — shallow embedding

A shallow embedding of the protocol-client core of the LCQ repository
(`src/lib/mcp/client.ts`, `src/lib/mcp/utils.ts`, `src/lib/mcp/models.ts`,
`src/config/mcp-config.ts`), together with theorems settling the claims
about it.

Modelling conventions:
* JavaScript numbers that only ever hold integral values are modelled as
  `Int` (timestamps, counts) or `Nat` (HTTP status codes, attempt counts,
  millisecond delays produced by `Math.min`/`Math.pow` on naturals).
* `undefined` / absent fields are modelled as `Option`.
* JS exception values are modelled by `RawError`; the class hierarchy of
  `models.ts` (`McpError` and subclasses) is modelled by a record `McpErr`
  with a `tag` identifying the most-derived class, so that
  `instanceof McpResponseError` corresponds to
  `tag ∈ {response, rateLimit, auth}` (both subclasses extend
  `McpResponseError` in the source).
* The mutable JS objects stored in the rate-limit ledger are modelled with
  an explicit heap (`Heap`, a list of entry cells addressed by index), so
  that the aliasing behaviour of the shallow copy `{...rateState}` in
  `updateRateLimit` is captured faithfully: the copy shares the entry
  objects (heap addresses) with the original.
* The network (`fetch` raced against the timeout timer in
  `executeWithTimeout`) is modelled as an oracle `Nat → AttemptResult`
  giving, for each attempt number, either the parsed JSON body of a 2xx
  reply or the exception the attempt raised.
-/

/-! ## String helpers (JS `String.prototype.includes`, `x || 'default'`) -/

/-- Boolean list-prefix test, used to implement substring search. -/
def hasPrefixL : List Char → List Char → Bool
  | [], _ => true
  | _ :: _, [] => false
  | c :: cs, d :: ds => c == d && hasPrefixL cs ds

/-- Boolean list-infix test: does `pat` occur contiguously in the list? -/
def hasInfixL (pat : List Char) : List Char → Bool
  | [] => hasPrefixL pat []
  | d :: ds => hasPrefixL pat (d :: ds) || hasInfixL pat ds

/-- JS `s.includes(pat)`. -/
def strContains (s pat : String) : Bool :=
  hasInfixL pat.toList s.toList

/-- JS `s || d` for strings: the empty string is falsy. -/
def strOr (s d : String) : String :=
  if s = "" then d else s

/-- JS `s || d` where `s` may be `undefined` (modelled as `none`). -/
def strOrD (s : Option String) (d : String) : String :=
  match s with
  | some m => strOr m d
  | none => d

/-- JS `n || 0` where `n` may be `undefined`; `0` is falsy so both
`undefined` and `0` give `0`. -/
def natOrZero (n : Option Nat) : Nat :=
  match n with
  | some m => m
  | none => 0

/-! ## JSON values (opaque result payloads) -/

/-- A JSON value; the client treats result payloads as opaque, so only the
structure needed to carry them around is modelled.  `jnull` models JSON
`null` (which is a present value, distinct from an absent field). -/
inductive JVal where
  | jnull : JVal
  | jbool : Bool → JVal
  | jnum : Int → JVal
  | jstr : String → JVal
  | jarr : List JVal → JVal
  | jobj : List (String × JVal) → JVal

/-! ## Error model (`src/lib/mcp/models.ts`) -/

/-- The most-derived class of an error object from `models.ts`.  `base`
is a plain `McpError`. -/
inductive McpTag where
  | base | request | connection | timeout | response | rateLimit | auth
  deriving DecidableEq, Repr

/-- An instance of `McpError` or one of its subclasses.  `statusCode` is
`some` exactly for (subclasses of) `McpResponseError`; `retryAfter` is
the optional field of `McpRateLimitError`. -/
structure McpErr where
  tag : McpTag
  message : String
  statusCode : Option Nat
  retryAfter : Option Nat
  deriving DecidableEq, Repr

/-- `new McpError(message)`. -/
def McpError (message : String) : McpErr :=
  ⟨.base, message, none, none⟩

/-- `new McpRequestError(message)`. -/
def McpRequestError (message : String) : McpErr :=
  ⟨.request, message, none, none⟩

/-- `new McpConnectionError(message)`. -/
def McpConnectionError (message : String) : McpErr :=
  ⟨.connection, message, none, none⟩

/-- `new McpTimeoutError(message)`. -/
def McpTimeoutError (message : String) : McpErr :=
  ⟨.timeout, message, none, none⟩

/-- `new McpResponseError(message, statusCode = 0)`. -/
def McpResponseError (message : String) (statusCode : Nat := 0) : McpErr :=
  ⟨.response, message, some statusCode, none⟩

/-- `new McpRateLimitError(message, retryAfter?)` — calls
`super(message, 429)`. -/
def McpRateLimitError (message : String) (retryAfter : Option Nat := none) : McpErr :=
  ⟨.rateLimit, message, some 429, retryAfter⟩

/-- `new McpAuthError(message)` — calls `super(message, 401)`. -/
def McpAuthError (message : String) : McpErr :=
  ⟨.auth, message, some 401, none⟩

/-! ## Response envelope model (`McpResponse` interface) -/

/-- The optional rate-limit snapshot in a response's metadata. -/
structure RateLimitInfo where
  remaining : Int
  reset : Int
  limit : Int
  deriving DecidableEq, Repr

/-- The optional metadata object of a response envelope. -/
structure McpMetadata where
  processingTime : Option Int
  rateLimit : Option RateLimitInfo
  deriving DecidableEq, Repr

/-- The `error` field of a response envelope; `code` and `message` may be
absent at runtime (the utils guard with `|| 0` / `|| 'Unknown error'`). -/
structure McpErrField where
  code : Option Nat
  message : Option String
  deriving DecidableEq, Repr

/-- A parsed response envelope (`McpResponse` interface of `models.ts`).
`result = none` models an absent (`undefined`) result field. -/
structure McpResponse where
  result : Option JVal
  error : Option McpErrField
  id : String
  metadata : Option McpMetadata

/-! ## Raw JS failure values -/

/-- A raw JS exception value as seen by `handleMcpError` and
`isRetryableError`: either an already-classified client error
(`instanceof McpError`) or a plain JS error with its `name`, `message`,
optional numeric `status` / `statusCode` fields, and the parsed numeric
value of a `retry-after` header when the transport exposed one
(`error.headers?.get?.('retry-after')`, fed through `parseInt`). -/
inductive RawError where
  | mcp : McpErr → RawError
  | js : (isTypeError : Bool) → (name : String) → (message : String) →
      (status : Option Nat) → (statusCode : Option Nat) →
      (retryAfterHeader : Option Nat) → RawError

/-- JS truthiness of a possibly-absent number: `undefined` and `0` are
falsy. -/
def truthyN : Option Nat → Bool
  | none => false
  | some n => !(n == 0)

/-- `error.status || error.statusCode` as used in `handleMcpError`. -/
def effStatus (status statusCode : Option Nat) : Option Nat :=
  if truthyN status then status
  else if truthyN statusCode then statusCode
  else none

/-- The `message` property of a raw failure. -/
def rawErrMessage : RawError → String
  | .mcp m => m.message
  | .js _ _ message _ _ _ => message

/-! ## `validateMethodResponse` (`src/lib/mcp/utils.ts`, lines 51–71)

The argument is the parsed JSON body; `none` models a falsy body
(`null`/`undefined`).  Throwing is modelled with `Except`. -/

/-- Transcription of `validateMethodResponse(response, methodId)`. -/
def validateMethodResponse (response : Option McpResponse) (methodId : String) :
    Except McpErr JVal :=
  match response with
  | none =>
    .error (McpResponseError ("Empty response from MCP method: " ++ methodId))
  | some r =>
    match r.error with
    | some ef =>
      .error (McpResponseError
        ("MCP error in method " ++ methodId ++ ": " ++ strOrD ef.message "Unknown error")
        (natOrZero ef.code))
    | none =>
      match r.result with
      | none =>
        .error (McpResponseError ("Missing result in MCP response for method: " ++ methodId))
      | some v => .ok v

/-! ## `handleMcpError` (`src/lib/mcp/utils.ts`, lines 78–129) -/

/-- Transcription of `handleMcpError(error)`.  Branch order mirrors the
source: classified passthrough, `TypeError` with a network message,
fetch-named or fetch-mentioning errors, JSON `SyntaxError`, HTTP status
(401/403, 429, other), generic fallback. -/
def handleMcpError (error : RawError) : McpErr :=
  match error with
  | .mcp m => m
  | .js isTypeError nm message status statusCode retryAfterHeader =>
    if isTypeError && strContains message "network" then
      McpConnectionError ("Network error connecting to MCP: " ++ message)
    else if nm == "FetchError" || strContains message "fetch" then
      McpConnectionError ("Failed to connect to MCP: " ++ message)
    else if nm == "SyntaxError" && strContains message "JSON" then
      McpResponseError ("Invalid JSON response from MCP: " ++ message)
    else
      match effStatus status statusCode with
      | some status =>
        if status == 401 || status == 403 then
          McpAuthError ("Authentication failed: " ++ strOr message "Invalid API key")
        else if status == 429 then
          McpRateLimitError ("MCP rate limit exceeded: " ++ strOr message "Too many requests")
            retryAfterHeader
        else
          McpResponseError ("MCP HTTP error " ++ toString status ++ ": " ++
            strOr message "Unknown error") status
      | none =>
        McpError ("MCP error: " ++ strOr message "Unknown error")

/-! ## Rate-limit ledger (`src/lib/mcp/utils.ts`, lines 137–191)

The JS ledger `Record<string, {count, resetTime}>` maps method ids to
*mutable entry objects*.  To capture JS reference semantics we model the
entry objects in a heap (`Heap`, cells addressed by list index) and the
ledger as an association list from method id to heap address.  The
shallow copy `{...rateState}` copies only the key-to-address bindings;
the entry objects (heap cells) stay shared. -/

/-- A rate-limit ledger entry object `{count, resetTime}`. -/
structure RLEntry where
  count : Int
  resetTime : Int
  deriving DecidableEq, Repr

/-- The store of entry objects; an address is an index into the list. -/
abbrev Heap : Type := List RLEntry

/-- A ledger object: key-to-address bindings in insertion order. -/
abbrev Ledger : Type := List (String × Nat)

/-- Address bound to `key` in a ledger (`rateState[methodId]` as a
reference). -/
def lookupAddr (l : Ledger) (key : String) : Option Nat :=
  (List.find? (fun p => p.1 == key) l).map (fun p => p.2)

/-- Dereference a heap address. -/
def heapGet (h : Heap) (a : Nat) : Option RLEntry :=
  List.get? h a

/-- Overwrite the cell at address `a` (in-place mutation of the shared
entry object). -/
def heapSet (h : Heap) (a : Nat) (e : RLEntry) : Heap :=
  List.set h a e

/-- Allocate a fresh entry object, returning the new heap and the new
object's address. -/
def heapAlloc (h : Heap) (e : RLEntry) : Heap × Nat :=
  (h ++ [e], List.length h)

/-- `obj[key] = addr`: rebind `key` (replacing an existing binding,
appending otherwise). -/
def ledgerSet : Ledger → String → Nat → Ledger
  | [], key, a => [(key, a)]
  | (k, b) :: rest, key, a =>
    if k == key then (key, a) :: rest else (k, b) :: ledgerSet rest key a

/-- The value a JS reader of the ledger sees for `key`: the entry object
currently referenced by the binding. -/
def viewLedger (l : Ledger) (h : Heap) (key : String) : Option RLEntry :=
  (lookupAddr l key).bind (heapGet h)

/-- Transcription of `checkRateLimit(methodId, rateState)`; `now` is the
value of `Date.now()` at the call. -/
def checkRateLimit (methodId : String) (l : Ledger) (h : Heap) (now : Int) : Bool :=
  match viewLedger l h methodId with
  | none => true
  | some entry =>
    if entry.resetTime < now then true
    else decide (entry.count < 60)

/-- Transcription of `updateRateLimit(methodId, rateState, response)`;
`now` is the value of `Date.now()` at the call.  The first step is the
shallow copy `const newState = {...rateState}` — the key-to-address
bindings are copied, the entry objects are shared.  When the response
metadata carries no rate-limit snapshot and an entry exists, the source
runs `newState[methodId].count += 1`, an in-place mutation of the shared
entry object, modelled by `heapSet` at the shared address.  (The
dangling-address fallback below is unreachable for states built by this
model's operations, where every bound address is a valid cell.) -/
def updateRateLimit (methodId : String) (l : Ledger) (h : Heap)
    (response : McpResponse) (now : Int) : Ledger × Heap :=
  let newState := l
  match response.metadata.bind (fun md => md.rateLimit) with
  | some rl =>
    let (h', a) := heapAlloc h ⟨rl.limit - rl.remaining, rl.reset * 1000⟩
    (ledgerSet newState methodId a, h')
  | none =>
    match lookupAddr newState methodId with
    | none =>
      let (h', a) := heapAlloc h ⟨1, now + 60000⟩
      (ledgerSet newState methodId a, h')
    | some a =>
      match heapGet h a with
      | some entry => (newState, heapSet h a ⟨entry.count + 1, entry.resetTime⟩)
      | none => (newState, h)

/-! ## Method registry (`src/config/mcp-config.ts`) -/

/-- A method descriptor from the static configuration table. -/
structure McpMethod where
  id : String
  name : String
  description : String
  requiresApiKey : Bool
  rateLimitPerMinute : Nat
  deriving DecidableEq, Repr

/-- The static `methods` table of `mcp-config.ts`. -/
def mcpMethods : List McpMethod :=
  [ ⟨"getAccountInfo", "Get Account Info", "Fetch account information from Solana", true, 60⟩,
    ⟨"getBalance", "Get Balance", "Fetch SOL balance for an account", true, 120⟩,
    ⟨"getTransaction", "Get Transaction", "Fetch transaction details by signature", true, 60⟩,
    ⟨"getTokenAccounts", "Get Token Accounts", "Fetch token accounts for an owner", true, 40⟩,
    ⟨"getTokenBalance", "Get Token Balance", "Fetch token balance for a specific token account", true, 120⟩,
    ⟨"getProgramAccounts", "Get Program Accounts", "Fetch accounts owned by a program", true, 20⟩,
    ⟨"getSignaturesForAddress", "Get Signatures For Address", "Fetch transaction signatures for an address", true, 30⟩,
    ⟨"getClusterNodes", "Get Cluster Nodes", "Fetch list of nodes in the cluster", true, 10⟩,
    ⟨"getBlockTime", "Get Block Time", "Fetch estimated production time of a block", true, 30⟩,
    ⟨"getSlot", "Get Slot", "Fetch current slot in ledger", true, 60⟩,
    ⟨"getHealth", "Get Health", "Check RPC health status", false, 120⟩,
    ⟨"getVersion", "Get Version", "Fetch node version information", false, 30⟩ ]

/-- Transcription of `getMethod(id)`. -/
def getMethod (id : String) : Option McpMethod :=
  List.find? (fun m => m.id == id) mcpMethods

/-! ## Protocol client (`src/lib/mcp/client.ts`) -/

/-- The client options record (`timeout` ms, `retryAttempts`, `debug`).
The constructor guards each with `||`, so a constructed client always has
`retryAttempts ≥ 1` (a falsy `0` falls back to the configured default 3). -/
structure ClientOptions where
  timeout : Nat
  retryAttempts : Nat
  debug : Bool
  deriving DecidableEq, Repr

/-- What one attempt of `executeWithTimeout` produces: either the parsed
JSON body of a 2xx reply (`none` modelling a `null` body) or the raised
exception (`McpTimeoutError` from the timeout race, `McpResponseError`
for non-2xx statuses, or a plain JS error such as a network `TypeError`
or a JSON `SyntaxError`). -/
inductive AttemptResult where
  | success : Option McpResponse → AttemptResult
  | failure : RawError → AttemptResult

/-- The observable outcome of `execute`: the returned payload or thrown
classified error, the number of attempts performed, and the list of
backoff sleeps (ms) taken between attempts, in order. -/
structure ExecOutcome where
  result : Except McpErr JVal
  attempts : Nat
  delays : List Nat

namespace McpClient

/-- Transcription of `McpClient.isRetryableError(error)`: network
`TypeError`s whose message mentions `network`, `McpTimeoutError`s, and
`McpResponseError`s (including the `McpRateLimitError` and `McpAuthError`
subclasses) whose `statusCode` is in the retryable set. -/
def isRetryableError (error : RawError) : Bool :=
  match error with
  | .js isTypeError _ message _ _ _ => isTypeError && strContains message "network"
  | .mcp m =>
    if m.tag == .timeout then true
    else if m.tag == .response || m.tag == .rateLimit || m.tag == .auth then
      match m.statusCode with
      | some sc => [408, 429, 500, 502, 503, 504].contains sc
      | none => false
    else false

/-- The `new Error('Unknown MCP error')` fallback used when the retry
loop never ran (only possible with `retryAttempts = 0`). -/
def unknownRawError : RawError :=
  .js false "Error" "Unknown MCP error" none none none

/-- The `while (attempt < retryAttempts)` loop of `execute`, fuelled by
the number of remaining loop iterations (`fuel = retryAttempts - attempt`
on every call).  Each iteration increments `attempt`, runs the transport,
validates a successful reply, and on failure either breaks (not
retryable, or attempts exhausted) — surfacing `handleMcpError` of the
last error — or sleeps `min(1000 * 2^(attempt-1), 10000)` ms and loops. -/
def execLoop (retryAttempts : Nat) (transport : Nat → AttemptResult) (methodId : String) :
    Nat → Nat → Option RawError → List Nat → ExecOutcome
  | 0, attempt, lastError, delays =>
    ⟨.error (handleMcpError (lastError.getD unknownRawError)), attempt, delays⟩
  | fuel + 1, attempt, _, delays =>
    let a := attempt + 1
    match transport a with
    | .success resp =>
      match validateMethodResponse resp methodId with
      | .ok v => ⟨.ok v, a, delays⟩
      | .error me =>
        let e := RawError.mcp me
        if !(isRetryableError e) || retryAttempts ≤ a then
          ⟨.error (handleMcpError e), a, delays⟩
        else
          execLoop retryAttempts transport methodId fuel a (some e)
            (delays ++ [min (1000 * 2 ^ (a - 1)) 10000])
    | .failure e =>
      if !(isRetryableError e) || retryAttempts ≤ a then
        ⟨.error (handleMcpError e), a, delays⟩
      else
        execLoop retryAttempts transport methodId fuel a (some e)
          (delays ++ [min (1000 * 2 ^ (a - 1)) 10000])

/-- Transcription of `McpClient.execute(methodId, params)`.  The params,
endpoint resolution, and request-envelope construction do not influence
the control flow modelled here; the transport oracle subsumes the wire.
An unknown method id throws `McpRequestError` before any attempt. -/
def execute (options : ClientOptions) (methodId : String)
    (transport : Nat → AttemptResult) : ExecOutcome :=
  match getMethod methodId with
  | none => ⟨.error (McpRequestError ("Unknown MCP method: " ++ methodId)), 0, []⟩
  | some _ => execLoop options.retryAttempts transport methodId options.retryAttempts 0 none []

/-- `execute` with the ambient rate-limit ledger state threaded through
explicitly.  The source `execute` (client.ts lines 47–101) neither reads
nor writes any rate-limit ledger — the `McpClient` class holds no ledger
field and never calls `updateRateLimit` or `checkRateLimit` — so the
faithful frame is the identity on the ledger and its heap. -/
def executeWithLedger (options : ClientOptions) (methodId : String)
    (transport : Nat → AttemptResult) (l : Ledger) (h : Heap) :
    ExecOutcome × Ledger × Heap :=
  (execute options methodId transport, l, h)

/-! ### Convenience wrappers (client.ts lines 189–262)

Each wrapper is `return this.execute(method, params)`; it is modelled as
the (method id, params object) pair handed to `execute`, with the params
object transcribed field by field in source order. -/

/-- A call to `execute`: the method id and the params object. -/
structure MethodCall where
  methodId : String
  params : JVal

/-- `getNetworkStatus()` → `execute('getHealth', {})`. -/
def getNetworkStatus : MethodCall :=
  ⟨"getHealth", .jobj []⟩

/-- `getClusterStatus(cluster)` → `execute('getClusterNodes', { cluster })`. -/
def getClusterStatus (cluster : String) : MethodCall :=
  ⟨"getClusterNodes", .jobj [("cluster", .jstr cluster)]⟩

/-- `getAccountInfo(address, encoding = 'jsonParsed')` →
`execute('getAccountInfo', { address, encoding })`. -/
def getAccountInfo (address : String) (encoding : String := "jsonParsed") : MethodCall :=
  ⟨"getAccountInfo", .jobj [("address", .jstr address), ("encoding", .jstr encoding)]⟩

/-- `getProgramData(programId, encoding = 'jsonParsed')` →
`execute('getAccountInfo', { address: programId, encoding })`. -/
def getProgramData (programId : String) (encoding : String := "jsonParsed") : MethodCall :=
  ⟨"getAccountInfo", .jobj [("address", .jstr programId), ("encoding", .jstr encoding)]⟩

/-- `getTransaction(signature)` → `execute('getTransaction', { signature })`. -/
def getTransaction (signature : String) : MethodCall :=
  ⟨"getTransaction", .jobj [("signature", .jstr signature)]⟩

/-- `getTokenAccounts(owner)` → `execute('getTokenAccounts', { owner })`. -/
def getTokenAccounts (owner : String) : MethodCall :=
  ⟨"getTokenAccounts", .jobj [("owner", .jstr owner)]⟩

/-- `getSignaturesForAddress(address, limit = 10)` →
`execute('getSignaturesForAddress', { address, limit })`. -/
def getSignaturesForAddress (address : String) (limit : Nat := 10) : MethodCall :=
  ⟨"getSignaturesForAddress", .jobj [("address", .jstr address), ("limit", .jnum limit)]⟩

/-- `getVersion()` → `execute('getVersion', {})`. -/
def getVersion : MethodCall :=
  ⟨"getVersion", .jobj []⟩

/-- The names of the public convenience wrapper methods defined on the
`McpClient` class body (client.ts lines 189–262), in source order.
`execute`, `executeWithTimeout`, `isRetryableError`, `setEndpoint` and
`setApiKey` are not parameter-shaping wrappers and are excluded. -/
def wrapperNames : List String :=
  [ "getNetworkStatus", "getClusterStatus", "getAccountInfo", "getProgramData",
    "getTransaction", "getTokenAccounts", "getSignaturesForAddress", "getVersion" ]

end McpClient

/-! ## Claim-side definitions

These definitions render the claims' own wording, to be compared with the
transcribed source functions. -/

/-- The taxonomy member the C5 claim assigns to a raw failure, rendered
from the claim's first-match-wins enumeration: passthrough; network-type
exception → connection; fetch-named/fetch-message exception → connection;
JSON syntax exception → response; status 401/403 → auth; 429 →
rate-limit; other status → response; otherwise generic unknown. -/
def claimC5Tag : RawError → McpTag
  | .mcp m => m.tag
  | .js isTypeError nm message status statusCode _ =>
    if isTypeError && strContains message "network" then .connection
    else if nm == "FetchError" || strContains message "fetch" then .connection
    else if nm == "SyntaxError" && strContains message "JSON" then .response
    else
      match effStatus status statusCode with
      | some s => if s == 401 || s == 403 then .auth
                  else if s == 429 then .rateLimit
                  else .response
      | none => .base

/-- The retry-after hint the C5 claim says the result carries: the header
hint for a rate-limit classification, the already-classified error's own
hint on passthrough, nothing otherwise. -/
def claimC5RetryAfter : RawError → Option Nat
  | .mcp m => m.retryAfter
  | .js isTypeError nm message status statusCode retryAfterHeader =>
    if claimC5Tag (.js isTypeError nm message status statusCode retryAfterHeader) = .rateLimit then
      retryAfterHeader
    else none

/-- The retry-eligibility predicate as the C2 claim words it: a timeout
error, a network-layer transport error (a network `TypeError`), or a
response-class error whose HTTP status is one of
{408, 429, 500, 502, 503, 504}. -/
def claimC2Retryable : RawError → Bool
  | .mcp m =>
    m.tag == .timeout ||
    ((m.tag == .response || m.tag == .rateLimit || m.tag == .auth) &&
      (match m.statusCode with
       | some sc => [408, 429, 500, 502, 503, 504].contains sc
       | none => false))
  | .js isTypeError _ message _ _ _ => isTypeError && strContains message "network"

/-- A raw failure that is not an already-classified *request* error; the
transports modelled here (timeouts, HTTP-status response errors, network
and parse exceptions) only ever produce such failures. -/
def RawOk (e : RawError) : Prop :=
  ∀ m, e = RawError.mcp m → m.tag ≠ .request

/-! ## Supporting lemmas -/

theorem hasPrefixL_append (l t : List Char) : hasPrefixL l (l ++ t) = true := by
  induction l with
  | nil => rfl
  | cons c cs ih => simp [hasPrefixL, ih]

theorem hasInfixL_append (pre pat suf : List Char) :
    hasInfixL pat (pre ++ (pat ++ suf)) = true := by
  induction pre with
  | nil =>
    cases hp : pat ++ suf with
    | nil =>
      have : pat = [] := by
        cases pat with
        | nil => rfl
        | cons c cs => simp at hp
      simp [this, hasInfixL, hasPrefixL]
    | cons d ds =>
      simp only [List.nil_append, hp, hasInfixL]
      rw [← hp, hasPrefixL_append]
      simp
  | cons c cs ih =>
    simp [hasInfixL, List.append_eq, ih]

theorem strContains_mid (pre s suf : String) :
    strContains (pre ++ s ++ suf) s = true := by
  have h : (pre ++ s ++ suf).toList = pre.toList ++ (s.toList ++ suf.toList) := by
    simp [String.toList, String.data_append]
  simp [strContains, h, hasInfixL_append]

theorem strContains_self (s : String) : strContains s s = true := by
  have h := strContains_mid "" s ""
  simpa using h

theorem strContains_left (pre s : String) : strContains (pre ++ s) s = true := by
  have h := strContains_mid pre s ""
  simpa using h

theorem hasInfixL_nil (l : List Char) : hasInfixL [] l = true := by
  cases l with
  | nil => rfl
  | cons c cs => simp [hasInfixL, hasPrefixL]

theorem strContains_empty (s : String) : strContains s "" = true := by
  simp [strContains, hasInfixL_nil]

theorem strContains_append_strOr (pre msg d : String) :
    strContains (pre ++ strOr msg d) msg = true := by
  by_cases h : msg = ""
  · subst h; exact strContains_empty _
  · rw [strOr, if_neg h]; exact strContains_left pre msg

/-- Every error thrown by `validateMethodResponse` is a
`McpResponseError`. -/
theorem validateMethodResponse_error_tag (response : Option McpResponse) (methodId : String)
    (e : McpErr) (h : validateMethodResponse response methodId = .error e) :
    e.tag = .response := by
  cases response with
  | none =>
    simp only [validateMethodResponse, Except.error.injEq] at h
    rw [← h]; rfl
  | some r =>
    obtain ⟨res, err, rid, md⟩ := r
    cases err with
    | some ef =>
      simp only [validateMethodResponse, Except.error.injEq] at h
      rw [← h]; rfl
    | none =>
      cases res with
      | none =>
        simp only [validateMethodResponse, Except.error.injEq] at h
        rw [← h]; rfl
      | some v =>
        simp only [validateMethodResponse] at h
        exact Except.noConfusion h

/-- `handleMcpError` never classifies a plain JS error as a *request*
error: every branch produces a connection, response, auth, rate-limit or
generic error. -/
theorem handleMcpError_js_tag_ne_request (ty : Bool) (nm msg : String)
    (st stc ra : Option Nat) :
    (handleMcpError (.js ty nm msg st stc ra)).tag ≠ .request := by
  simp only [handleMcpError]
  split_ifs
  · simp [McpConnectionError]
  · simp [McpConnectionError]
  · simp [McpResponseError]
  · cases h : effStatus st stc with
    | some s =>
      simp only []
      split_ifs
      · simp [McpAuthError]
      · simp [McpRateLimitError]
      · simp [McpResponseError]
    | none => simp [McpError]

/-- Classifying a well-formed raw failure never yields a *request*
error. -/
theorem handleMcpError_tag_ne_request (e : RawError) (he : RawOk e) :
    (handleMcpError e).tag ≠ .request := by
  cases e with
  | mcp m => exact he m rfl
  | js ty nm msg st stc ra => exact handleMcpError_js_tag_ne_request ty nm msg st stc ra

/-- `isRetryableError` holds on a classified timeout error. -/
theorem isRetryableError_timeout (msg : String) :
    McpClient.isRetryableError (.mcp (McpTimeoutError msg)) = true := rfl

/-- Along a run of the retry loop whose transport only raises well-formed
failures, every error surfaced to the caller is classified to something
other than a *request* error. -/
theorem execLoop_error_tag_ne_request (ra : Nat) (tr : Nat → AttemptResult) (mId : String)
    (hw : ∀ n f, tr n = .failure f → RawOk f) :
    ∀ (fuel attempt : Nat) (le : Option RawError) (acc : List Nat),
      (∀ r, le = some r → RawOk r) →
      ∀ e, (McpClient.execLoop ra tr mId fuel attempt le acc).result = .error e →
        e.tag ≠ .request := by
  intro fuel
  induction fuel with
  | zero =>
    intro attempt le acc hle e he
    simp only [McpClient.execLoop, Except.error.injEq] at he
    rw [← he]
    cases le with
    | none =>
      exact handleMcpError_tag_ne_request _
        (fun m hm => by simp [McpClient.unknownRawError] at hm)
    | some r =>
      exact handleMcpError_tag_ne_request _ (hle r rfl)
  | succ f ih =>
    intro attempt le acc hle e he
    simp only [McpClient.execLoop] at he
    cases htr : tr (attempt + 1) with
    | success resp =>
      rw [htr] at he
      simp only [] at he
      cases hv : validateMethodResponse resp mId with
      | ok v =>
        rw [hv] at he
        simp at he
      | error me =>
        rw [hv] at he
        simp only [] at he
        have hresp : me.tag = .response := validateMethodResponse_error_tag resp mId me hv
        have hok : RawOk (.mcp me) := by
          intro m hm
          cases hm
          rw [hresp]
          simp
        by_cases hc : (!McpClient.isRetryableError (.mcp me) || decide (ra ≤ attempt + 1)) = true
        · rw [if_pos hc] at he
          simp only [Except.error.injEq] at he
          rw [← he]
          exact handleMcpError_tag_ne_request (.mcp me) hok
        · rw [if_neg hc] at he
          exact ih (attempt + 1) (some (.mcp me)) _
            (fun r hr => by cases hr; exact hok) e he
    | failure f' =>
      rw [htr] at he
      simp only [] at he
      have hok : RawOk f' := hw (attempt + 1) f' htr
      by_cases hc : (!McpClient.isRetryableError f' || decide (ra ≤ attempt + 1)) = true
      · rw [if_pos hc] at he
        simp only [Except.error.injEq] at he
        rw [← he]
        exact handleMcpError_tag_ne_request f' hok
      · rw [if_neg hc] at he
        exact ih (attempt + 1) (some f') _
          (fun r hr => by cases hr; exact hok) e he

/-- Peeling the first element off a shifted `List.range` map. -/
theorem cons_map_range_shift (g : Nat → Nat) (k a : Nat) :
    g a :: List.map (fun i => g (a + 1 + i)) (List.range k) =
    List.map (fun i => g (a + i)) (List.range (k + 1)) := by
  rw [List.range_succ_eq_map, List.map_cons, List.map_map]
  simp only [Nat.add_zero]
  congr 1
  congr 1
  funext i
  simp only [Function.comp_apply]
  congr 1
  omega

/-- Running the retry loop against a transport that fails every attempt
with the same timeout error: the loop performs every remaining attempt,
sleeps the deterministic backoff `min(1000 * 2^(attempt-1), 10000)`
between consecutive attempts, and surfaces the timeout error unchanged. -/
theorem execLoop_timeout_run (tr : Nat → AttemptResult) (msg mId : String)
    (htr : ∀ n, tr n = .failure (.mcp (McpTimeoutError msg))) :
    ∀ (fuel attempt : Nat) (le : Option RawError) (acc : List Nat), 1 ≤ fuel →
      McpClient.execLoop (attempt + fuel) tr mId fuel attempt le acc =
        ⟨.error (McpTimeoutError msg), attempt + fuel,
         acc ++ (List.range (fuel - 1)).map (fun i => min (1000 * 2 ^ (attempt + i)) 10000)⟩ := by
  intro fuel
  induction fuel with
  | zero => intro attempt le acc h; exact absurd h (by omega)
  | succ f ih =>
    intro attempt le acc _
    simp only [McpClient.execLoop]
    rw [htr (attempt + 1)]
    simp only []
    cases Nat.eq_zero_or_pos f with
    | inl hf0 =>
      subst hf0
      rw [if_pos (by simp [McpClient.isRetryableError, McpTimeoutError])]
      simp [handleMcpError]
    | inr hfpos =>
      rw [if_neg (by simp [McpClient.isRetryableError, McpTimeoutError]; omega)]
      have harith : attempt + (f + 1) = (attempt + 1) + f := by omega
      rw [harith]
      rw [ih (attempt + 1) (some (.mcp (McpTimeoutError msg)))
        (acc ++ [min (1000 * 2 ^ (attempt + 1 - 1)) 10000]) hfpos]
      refine ExecOutcome.mk.injEq .. ▸ ?_
      refine ⟨rfl, rfl, ?_⟩
      simp only [Nat.add_sub_cancel]
      rw [List.append_assoc, List.singleton_append]
      congr 1
      have hf : f = (f - 1) + 1 := by omega
      conv_rhs => rw [hf]
      exact cons_map_range_shift (fun k => min (1000 * 2 ^ k) 10000) (f - 1) attempt

/-! ## Claims -/

/-- C1: the claim says every successful `execute(methodId, params)`
updates the rate-limit ledger entry for `methodId` before returning
(from a metadata snapshot as `{count = limit - remaining,
resetTime = reset * 1000}`, else by incrementing or creating an entry).
The code does not: `McpClient` holds no ledger and `execute` never calls
`updateRateLimit`.  Evaluated at a concrete successful call whose
response metadata carries the snapshot {remaining 50, reset 100,
limit 60} against an empty ledger: the call succeeds, yet the ledger
still has no entry for the method — whereas the claimed update (the rule
the never-invoked `updateRateLimit` implements) would have produced the
entry {count = 60 - 50, resetTime = 100 * 1000}. -/
theorem c1_execute_never_updates_ledger :
    (McpClient.executeWithLedger ⟨30000, 3, false⟩ "getHealth"
        (fun _ => .success (some ⟨some (.jstr "ok"), none, "req-1",
          some ⟨none, some ⟨50, 100, 60⟩⟩⟩)) [] []).1.result = .ok (.jstr "ok") ∧
    (McpClient.executeWithLedger ⟨30000, 3, false⟩ "getHealth"
        (fun _ => .success (some ⟨some (.jstr "ok"), none, "req-1",
          some ⟨none, some ⟨50, 100, 60⟩⟩⟩)) [] []).2 = (([] : Ledger), ([] : Heap)) ∧
    viewLedger [] [] "getHealth" = none ∧
    viewLedger
      (updateRateLimit "getHealth" [] []
        ⟨some (.jstr "ok"), none, "req-1", some ⟨none, some ⟨50, 100, 60⟩⟩⟩ 0).1
      (updateRateLimit "getHealth" [] []
        ⟨some (.jstr "ok"), none, "req-1", some ⟨none, some ⟨50, 100, 60⟩⟩⟩ 0).2
      "getHealth" = some ⟨60 - 50, 100 * 1000⟩ :=
  ⟨rfl, rfl, rfl, rfl⟩

/-- C7: the claim says `updateRateLimit` never mutates its ledger
argument in place.  In the heuristic-increment branch it does: the
shallow copy `{...rateState}` shares the entry object, and
`newState[methodId].count += 1` mutates it.  At the concrete input
{ledger: getAccountInfo ↦ entry, entry: {count 5, resetTime 9999999},
response without rate-limit metadata}: before the call the input ledger
reads count 5; after the call the *input* ledger (same bindings, read
through the post-call heap) reads count 6, and the returned ledger is
the very same binding list. -/
theorem c7_updateRateLimit_mutates_argument :
    viewLedger [("getAccountInfo", 0)] [⟨5, 9999999⟩] "getAccountInfo" = some ⟨5, 9999999⟩ ∧
    (updateRateLimit "getAccountInfo" [("getAccountInfo", 0)] [⟨5, 9999999⟩]
        ⟨some .jnull, none, "req-2", none⟩ 0).1 = [("getAccountInfo", 0)] ∧
    viewLedger [("getAccountInfo", 0)]
      (updateRateLimit "getAccountInfo" [("getAccountInfo", 0)] [⟨5, 9999999⟩]
        ⟨some .jnull, none, "req-2", none⟩ 0).2
      "getAccountInfo" = some ⟨6, 9999999⟩ :=
  ⟨rfl, rfl, rfl⟩

/-- C8: `checkRateLimit(methodId, ledger)` returns true iff there is no
entry, or the current time is strictly past the entry's reset time, or
the entry's count is strictly below the fixed ceiling 60 — regardless of
the per-method quota in the Method Descriptor.  The concrete instances:
true with no prior entry; false at count 60 in an unexpired window; true
again once the time passes the reset time; and true at count 45 for
`getTokenAccounts` even though its descriptor quota is 40. -/
theorem c8_checkRateLimit_characterization :
    (∀ (methodId : String) (l : Ledger) (h : Heap) (now : Int),
      checkRateLimit methodId l h now = true ↔
        (viewLedger l h methodId = none ∨
         ∃ entry, viewLedger l h methodId = some entry ∧
           (entry.resetTime < now ∨ entry.count < 60))) ∧
    checkRateLimit "getSlot" [] [] 0 = true ∧
    checkRateLimit "getSlot" [("getSlot", 0)] [⟨60, 10000⟩] 5000 = false ∧
    checkRateLimit "getSlot" [("getSlot", 0)] [⟨60, 10000⟩] 10001 = true ∧
    getMethod "getTokenAccounts" =
      some ⟨"getTokenAccounts", "Get Token Accounts",
        "Fetch token accounts for an owner", true, 40⟩ ∧
    checkRateLimit "getTokenAccounts" [("getTokenAccounts", 0)] [⟨45, 10000⟩] 5000 = true := by
  refine ⟨?_, rfl, rfl, rfl, rfl, rfl⟩
  intro methodId l h now
  unfold checkRateLimit
  cases hv : viewLedger l h methodId with
  | none => simp
  | some entry =>
    by_cases hrt : entry.resetTime < now
    · simp [hrt]
    · simp only [if_neg hrt, decide_eq_true_eq]
      constructor
      · intro hc
        exact Or.inr ⟨entry, rfl, Or.inr hc⟩
      · rintro (hnone | ⟨entry2, he2, hcase⟩)
        · exact absurd hnone (by simp)
        · obtain rfl : entry = entry2 := by injection he2
          rcases hcase with h1 | h2
          · exact absurd h1 hrt
          · exact h2

/-- C9 counterexample: the claim lists a `getBalance` convenience wrapper
among the Protocol Client's wrappers, but the `McpClient` class defines
no such method — even though `getBalance` is a method id in the gateway
registry (callers such as `AccountUtils` invoke
`execute('getBalance', …)` directly). -/
theorem c9_counterexample_no_getBalance_wrapper :
    ("getBalance" ∉ McpClient.wrapperNames) ∧
    "getBalance" ∈ mcpMethods.map (fun m => m.id) := by
  constructor
  · decide
  · decide

/-- C9 (amended): each convenience wrapper the client does define is pure
parameter-shaping over `execute` with the exact gateway parameter names:
getNetworkStatus → ('getHealth', {}); getClusterStatus c →
('getClusterNodes', {cluster}); getAccountInfo a e → ('getAccountInfo',
{address, encoding}) with encoding defaulting to 'jsonParsed';
getProgramData p e → ('getAccountInfo', {address: p, encoding});
getTransaction s → ('getTransaction', {signature}); getTokenAccounts o →
('getTokenAccounts', {owner}); getSignaturesForAddress a l →
('getSignaturesForAddress', {address, limit}) with limit defaulting to
10; getVersion → ('getVersion', {}); and no `getBalance` wrapper exists
on the client. -/
theorem c9_wrappers_amended :
    McpClient.getNetworkStatus = ⟨"getHealth", .jobj []⟩ ∧
    (∀ c, McpClient.getClusterStatus c = ⟨"getClusterNodes", .jobj [("cluster", .jstr c)]⟩) ∧
    (∀ a e, McpClient.getAccountInfo a e =
      ⟨"getAccountInfo", .jobj [("address", .jstr a), ("encoding", .jstr e)]⟩) ∧
    (∀ a, McpClient.getAccountInfo a = McpClient.getAccountInfo a "jsonParsed") ∧
    (∀ p e, McpClient.getProgramData p e =
      ⟨"getAccountInfo", .jobj [("address", .jstr p), ("encoding", .jstr e)]⟩) ∧
    (∀ p, McpClient.getProgramData p = McpClient.getProgramData p "jsonParsed") ∧
    (∀ s, McpClient.getTransaction s = ⟨"getTransaction", .jobj [("signature", .jstr s)]⟩) ∧
    (∀ o, McpClient.getTokenAccounts o = ⟨"getTokenAccounts", .jobj [("owner", .jstr o)]⟩) ∧
    (∀ a l, McpClient.getSignaturesForAddress a l =
      ⟨"getSignaturesForAddress", .jobj [("address", .jstr a), ("limit", .jnum l)]⟩) ∧
    (∀ a, McpClient.getSignaturesForAddress a = McpClient.getSignaturesForAddress a 10) ∧
    McpClient.getVersion = ⟨"getVersion", .jobj []⟩ ∧
    "getBalance" ∉ McpClient.wrapperNames := by
  refine ⟨rfl, fun c => rfl, fun a e => rfl, fun a => rfl, fun p e => rfl, fun p => rfl,
    fun s => rfl, fun o => rfl, fun a l => rfl, fun a => rfl, rfl, by decide⟩

/-- C2: a failed attempt is retry-eligible exactly when the error is a
timeout error, a network-layer transport error (a network `TypeError`),
or a response-class error whose HTTP status is one of
{408, 429, 500, 502, 503, 504}; in particular the empty-response and
missing-result errors thrown by `validateMethodResponse` (status code 0),
a JSON `SyntaxError`, and the unknown-method `McpRequestError` are never
retried. -/
theorem c2_retry_eligibility :
    (∀ e, McpClient.isRetryableError e = claimC2Retryable e) ∧
    (∀ methodId e, validateMethodResponse none methodId = .error e →
      McpClient.isRetryableError (.mcp e) = false) ∧
    (∀ (r : McpResponse) methodId e, r.error = none → r.result = none →
      validateMethodResponse (some r) methodId = .error e →
      McpClient.isRetryableError (.mcp e) = false) ∧
    (∀ msg (st stc ra : Option Nat),
      McpClient.isRetryableError (.js false "SyntaxError" msg st stc ra) = false) ∧
    (∀ s, McpClient.isRetryableError (.mcp (McpRequestError s)) = false) := by
  refine ⟨?_, ?_, ?_, ?_, ?_⟩
  · intro e
    cases e with
    | mcp m =>
      obtain ⟨tag, message, statusCode, retryAfter⟩ := m
      cases tag <;> rfl
    | js ty nm msg st stc ra => rfl
  · intro methodId e h
    simp only [validateMethodResponse, Except.error.injEq] at h
    rw [← h]
    rfl
  · intro r methodId e h1 h2 h3
    obtain ⟨res, err, rid, md⟩ := r
    change err = none at h1
    change res = none at h2
    subst h1
    subst h2
    simp only [validateMethodResponse, Except.error.injEq] at h3
    rw [← h3]
    rfl
  · intro msg st stc ra
    rfl
  · intro s
    rfl

/-- C2 witness: the empty-response error, the missing-result error and
the unknown-method error at concrete inputs are all non-retryable. -/
theorem c2_retry_eligibility_witness :
    McpClient.isRetryableError
      (.mcp (McpResponseError ("Empty response from MCP method: " ++ "getHealth"))) = false ∧
    McpClient.isRetryableError
      (.mcp (McpResponseError ("Missing result in MCP response for method: " ++ "getSlot"))) = false ∧
    McpClient.isRetryableError (.mcp (McpRequestError "Unknown MCP method: foo")) = false := by
  have h := c2_retry_eligibility
  refine ⟨h.2.1 "getHealth" _ rfl, ?_, h.2.2.2.2 "Unknown MCP method: foo"⟩
  exact h.2.2.1 ⟨none, none, "req-5", none⟩ "getSlot" _ rfl rfl rfl

/-- C6: `validateMethodResponse(response, methodId)` has exactly one of
four outcomes: a *response* error for an empty/absent body; a *response*
error built from the envelope's `error` field (its code and message,
with falsy-value fallbacks); a *response* (missing-result) error when
neither `result` nor `error` is present; otherwise it returns the result
payload unchanged.  Every thrown error is response-class. -/
theorem c6_validateMethodResponse_outcomes (response : Option McpResponse) (methodId : String) :
    (response = none →
      validateMethodResponse response methodId =
        .error (McpResponseError ("Empty response from MCP method: " ++ methodId))) ∧
    (∀ r ef, response = some r → r.error = some ef →
      validateMethodResponse response methodId =
        .error (McpResponseError
          ("MCP error in method " ++ methodId ++ ": " ++ strOrD ef.message "Unknown error")
          (natOrZero ef.code))) ∧
    (∀ r, response = some r → r.error = none → r.result = none →
      validateMethodResponse response methodId =
        .error (McpResponseError ("Missing result in MCP response for method: " ++ methodId))) ∧
    (∀ r v, response = some r → r.error = none → r.result = some v →
      validateMethodResponse response methodId = .ok v) ∧
    (∀ e, validateMethodResponse response methodId = .error e → e.tag = .response) := by
  refine ⟨?_, ?_, ?_, ?_, fun e he => validateMethodResponse_error_tag response methodId e he⟩
  · rintro rfl
    rfl
  · rintro r ef rfl hef
    obtain ⟨res, err, rid, md⟩ := r
    change err = some ef at hef
    subst hef
    rfl
  · rintro r rfl herr hres
    obtain ⟨res, err, rid, md⟩ := r
    change err = none at herr
    change res = none at hres
    subst herr
    subst hres
    rfl
  · rintro r v rfl herr hres
    obtain ⟨res, err, rid, md⟩ := r
    change err = none at herr
    change res = some v at hres
    subst herr
    subst hres
    rfl

/-- C6 witness: a well-formed envelope returns its payload unchanged; an
envelope carrying an error field throws a response error with that
field's code and message. -/
theorem c6_validateMethodResponse_outcomes_witness :
    validateMethodResponse (some ⟨some (.jstr "payload"), none, "req-3", none⟩) "getSlot" =
      .ok (.jstr "payload") ∧
    validateMethodResponse (some ⟨none, some ⟨some 42, some "boom"⟩, "req-4", none⟩) "getSlot" =
      .error (McpResponseError
        ("MCP error in method " ++ "getSlot" ++ ": " ++ strOrD (some "boom") "Unknown error")
        (natOrZero (some 42))) := by
  refine ⟨?_, ?_⟩
  · exact (c6_validateMethodResponse_outcomes
      (some ⟨some (.jstr "payload"), none, "req-3", none⟩) "getSlot").2.2.2.1 _ _ rfl rfl rfl
  · exact (c6_validateMethodResponse_outcomes
      (some ⟨none, some ⟨some 42, some "boom"⟩, "req-4", none⟩) "getSlot").2.1 _ _ rfl rfl

/-- C4: a method id that does not resolve in the registry makes `execute`
fail immediately with the request-class unknown-method error, zero
attempts and no backoff sleeps; for a method id that does resolve (and a
transport that only raises the failures a real transport can raise), no
surfaced error is request-class. -/
theorem c4_unknown_method_fails_fast :
    (∀ (options : ClientOptions) (methodId : String) (tr : Nat → AttemptResult),
      getMethod methodId = none →
      McpClient.execute options methodId tr =
        ⟨.error (McpRequestError ("Unknown MCP method: " ++ methodId)), 0, []⟩ ∧
      (McpRequestError ("Unknown MCP method: " ++ methodId)).tag = .request) ∧
    (∀ (options : ClientOptions) (methodId : String) (m : McpMethod)
        (tr : Nat → AttemptResult) (e : McpErr),
      getMethod methodId = some m →
      (∀ n f, tr n = .failure f → RawOk f) →
      (McpClient.execute options methodId tr).result = .error e →
      e.tag ≠ .request) := by
  constructor
  · intro options methodId tr h
    refine ⟨?_, rfl⟩
    unfold McpClient.execute
    rw [h]
  · intro options methodId m tr e hm hw he
    unfold McpClient.execute at he
    rw [hm] at he
    simp only [] at he
    exact execLoop_error_tag_ne_request options.retryAttempts tr methodId hw
      options.retryAttempts 0 none [] (fun r hr => by cases hr) e he

/-- C4 witness: an unregistered method id fails with zero attempts; a
registered one surfacing a timeout is not a request error. -/
theorem c4_unknown_method_fails_fast_witness :
    McpClient.execute ⟨30000, 3, false⟩ "thisMethodDoesNotExist"
        (fun _ => .failure (.mcp (McpTimeoutError "t"))) =
      ⟨.error (McpRequestError ("Unknown MCP method: " ++ "thisMethodDoesNotExist")), 0, []⟩ ∧
    McpTag.timeout ≠ McpTag.request := by
  have h := c4_unknown_method_fails_fast
  constructor
  · exact (h.1 ⟨30000, 3, false⟩ "thisMethodDoesNotExist"
      (fun _ => .failure (.mcp (McpTimeoutError "t"))) rfl).1
  · exact h.2 ⟨30000, 3, false⟩ "getHealth"
      ⟨"getHealth", "Get Health", "Check RPC health status", false, 120⟩
      (fun _ => .failure (.mcp (McpTimeoutError "t"))) (McpTimeoutError "t") rfl
      (fun n f hf => by
        injection hf with hf2
        rw [← hf2]
        intro mm hm
        injection hm with hm2
        rw [← hm2]
        decide)
      rfl

/-- C5: `handleMcpError` maps every raw failure to exactly one taxonomy
member by the claim's first-match-wins order (an already-classified error
passes through unchanged, including its fields), the original message is
preserved as a substring of the returned error's message in every branch,
the retry-after header hint is captured exactly for the rate-limit
classification, and a status outside {401, 403, 429} yields a response
error carrying that status. -/
theorem c5_handleMcpError_classification :
    (∀ m, handleMcpError (.mcp m) = m) ∧
    (∀ e, (handleMcpError e).tag = claimC5Tag e) ∧
    (∀ e, strContains (handleMcpError e).message (rawErrMessage e) = true) ∧
    (∀ e, (handleMcpError e).retryAfter = claimC5RetryAfter e) ∧
    (∀ (ty : Bool) (nm msg : String) (st stc ra : Option Nat) (s : Nat),
      (ty && strContains msg "network") = false →
      (nm == "FetchError" || strContains msg "fetch") = false →
      (nm == "SyntaxError" && strContains msg "JSON") = false →
      effStatus st stc = some s →
      (s == 401 || s == 403) = false → (s == 429) = false →
      handleMcpError (.js ty nm msg st stc ra) =
        McpResponseError ("MCP HTTP error " ++ toString s ++ ": " ++ strOr msg "Unknown error")
          s) := by
  refine ⟨fun m => rfl, ?_, ?_, ?_, ?_⟩
  · intro e
    cases e with
    | mcp m => rfl
    | js ty nm msg st stc ra =>
      simp only [handleMcpError, claimC5Tag]
      split_ifs
      · rfl
      · rfl
      · rfl
      · cases heff : effStatus st stc with
        | some s =>
          simp only []
          split_ifs
          · rfl
          · rfl
          · rfl
        | none => rfl
  · intro e
    cases e with
    | mcp m => exact strContains_self m.message
    | js ty nm msg st stc ra =>
      simp only [handleMcpError, rawErrMessage]
      split_ifs
      · exact strContains_left _ _
      · exact strContains_left _ _
      · exact strContains_left _ _
      · cases heff : effStatus st stc with
        | some s =>
          simp only []
          split_ifs
          · exact strContains_append_strOr _ _ _
          · exact strContains_append_strOr _ _ _
          · exact strContains_append_strOr _ _ _
        | none => exact strContains_append_strOr _ _ _
  · intro e
    cases e with
    | mcp m => rfl
    | js ty nm msg st stc ra =>
      by_cases hb1 : (ty && strContains msg "network") = true
      · simp [handleMcpError, claimC5RetryAfter, claimC5Tag, hb1, McpConnectionError]
      · by_cases hb2 : (nm == "FetchError" || strContains msg "fetch") = true
        · simp [handleMcpError, claimC5RetryAfter, claimC5Tag, hb1, hb2, McpConnectionError]
        · by_cases hb3 : (nm == "SyntaxError" && strContains msg "JSON") = true
          · simp [handleMcpError, claimC5RetryAfter, claimC5Tag, hb1, hb2, hb3,
              McpResponseError]
          · cases heff : effStatus st stc with
            | some s =>
              by_cases hs1 : (s == 401 || s == 403) = true
              · simp [handleMcpError, claimC5RetryAfter, claimC5Tag, hb1, hb2, hb3, heff,
                  hs1, McpAuthError]
              · by_cases hs2 : (s == 429) = true
                · simp [handleMcpError, claimC5RetryAfter, claimC5Tag, hb1, hb2, hb3, heff,
                    hs1, hs2, McpRateLimitError]
                · simp [handleMcpError, claimC5RetryAfter, claimC5Tag, hb1, hb2, hb3, heff,
                    hs1, hs2, McpResponseError]
            | none =>
              simp [handleMcpError, claimC5RetryAfter, claimC5Tag, hb1, hb2, hb3, heff,
                McpError]
  · intro ty nm msg st stc ra s h1 h2 h3 h4 h5 h6
    simp only [handleMcpError, h1, h2, h3, h4, h5, h6, Bool.false_eq_true, if_false]

/-- C5 witness: a plain failure carrying HTTP status 500 is classified
as a response error carrying status 500 and the original message. -/
theorem c5_handleMcpError_classification_witness :
    handleMcpError (.js false "Error" "boom" (some 500) none none) =
      McpResponseError ("MCP HTTP error " ++ toString 500 ++ ": " ++ strOr "boom" "Unknown error")
        500 := by
  exact c5_handleMcpError_classification.2.2.2.2 false "Error" "boom" (some 500) none none 500
    rfl rfl rfl rfl rfl rfl

/-- C10: `McpAuthError` hardcodes status code 401, so a failure carrying
HTTP status 403 (that is not already classified and matches no earlier
branch) is returned as an auth error whose `statusCode` is 401, not 403 —
the 401/403 distinction survives only in the message. -/
theorem c10_auth_statusCode_401 :
    (∀ msg, (McpAuthError msg).statusCode = some 401) ∧
    (∀ (ty : Bool) (nm msg : String) (st stc ra : Option Nat),
      (ty && strContains msg "network") = false →
      (nm == "FetchError" || strContains msg "fetch") = false →
      (nm == "SyntaxError" && strContains msg "JSON") = false →
      effStatus st stc = some 403 →
      handleMcpError (.js ty nm msg st stc ra) =
          McpAuthError ("Authentication failed: " ++ strOr msg "Invalid API key") ∧
        (handleMcpError (.js ty nm msg st stc ra)).statusCode = some 401 ∧
        (handleMcpError (.js ty nm msg st stc ra)).statusCode ≠ some 403) := by
  refine ⟨fun msg => rfl, ?_⟩
  intro ty nm msg st stc ra h1 h2 h3 h4
  have hh : handleMcpError (.js ty nm msg st stc ra) =
      McpAuthError ("Authentication failed: " ++ strOr msg "Invalid API key") := by
    simp only [handleMcpError, h1, h2, h3, h4, Bool.false_eq_true, if_false]
    exact if_pos rfl
  refine ⟨hh, ?_, ?_⟩
  · rw [hh]
    rfl
  · rw [hh]
    simp [McpAuthError]

/-- C10 witness: a 403 response is classified with status code 401. -/
theorem c10_auth_statusCode_401_witness :
    handleMcpError (.js false "Error" "Forbidden" (some 403) none none) =
      McpAuthError ("Authentication failed: " ++ strOr "Forbidden" "Invalid API key") ∧
    (handleMcpError (.js false "Error" "Forbidden" (some 403) none none)).statusCode =
      some 401 := by
  have h := (c10_auth_statusCode_401).2 false "Error" "Forbidden" (some 403) none none
    rfl rfl rfl rfl
  exact ⟨h.1, h.2.1⟩

/-- C3: for a transport that always times out, `execute` with
`retryAttempts = N ≥ 1` performs exactly N attempts, the i-th retry sleep
equals the backoff `min(1000 * 2^i, 10000)` ms (with `baseDelay = 1000`,
`maxDelay = 10000`), which in particular lies within ±20% of that
backoff, and the error finally surfaced is the timeout error itself
(timeout-class). -/
theorem c3_timeout_retry_schedule (options : ClientOptions) (methodId : String)
    (m : McpMethod) (msg : String) (tr : Nat → AttemptResult)
    (hm : getMethod methodId = some m)
    (htr : ∀ n, tr n = .failure (.mcp (McpTimeoutError msg)))
    (hN : 1 ≤ options.retryAttempts) :
    (McpClient.execute options methodId tr).attempts = options.retryAttempts ∧
    (McpClient.execute options methodId tr).result = .error (McpTimeoutError msg) ∧
    (McpTimeoutError msg).tag = .timeout ∧
    (McpClient.execute options methodId tr).delays =
      (List.range (options.retryAttempts - 1)).map (fun i => min (1000 * 2 ^ i) 10000) ∧
    (∀ i, i < options.retryAttempts - 1 →
      (McpClient.execute options methodId tr).delays.get? i =
        some (min (1000 * 2 ^ i) 10000) ∧
      4 * min (1000 * 2 ^ i) 10000 ≤ 5 * min (1000 * 2 ^ i) 10000 ∧
      5 * min (1000 * 2 ^ i) 10000 ≤ 6 * min (1000 * 2 ^ i) 10000) := by
  have hrun := execLoop_timeout_run tr msg methodId htr options.retryAttempts 0 none [] hN
  have hex : McpClient.execute options methodId tr =
      ⟨.error (McpTimeoutError msg), options.retryAttempts,
       (List.range (options.retryAttempts - 1)).map (fun i => min (1000 * 2 ^ i) 10000)⟩ := by
    unfold McpClient.execute
    rw [hm]
    simpa using hrun
  refine ⟨by rw [hex], by rw [hex], rfl, by rw [hex], ?_⟩
  intro i hi
  rw [hex]
  refine ⟨?_, ?_, ?_⟩
  · show (List.map (fun i => min (1000 * 2 ^ i) 10000)
      (List.range (options.retryAttempts - 1))).get? i = some (min (1000 * 2 ^ i) 10000)
    rw [List.get?_map, List.get?_range hi]
    rfl
  · generalize min (1000 * 2 ^ i) 10000 = c
    omega
  · generalize min (1000 * 2 ^ i) 10000 = c
    omega

/-- C3 witness: with `retryAttempts = 3` and an always-timing-out
transport, `execute` makes 3 attempts, sleeps [1000, 2000] ms, and
surfaces the timeout error. -/
theorem c3_timeout_retry_schedule_witness :
    (McpClient.execute ⟨30000, 3, false⟩ "getHealth"
        (fun _ => .failure (.mcp (McpTimeoutError "MCP request timed out after 30000ms")))).attempts
      = 3 ∧
    (McpClient.execute ⟨30000, 3, false⟩ "getHealth"
        (fun _ => .failure (.mcp (McpTimeoutError "MCP request timed out after 30000ms")))).result
      = .error (McpTimeoutError "MCP request timed out after 30000ms") ∧
    (McpClient.execute ⟨30000, 3, false⟩ "getHealth"
        (fun _ => .failure (.mcp (McpTimeoutError "MCP request timed out after 30000ms")))).delays
      = (List.range 2).map (fun i => min (1000 * 2 ^ i) 10000) := by
  have h := c3_timeout_retry_schedule ⟨30000, 3, false⟩ "getHealth"
    ⟨"getHealth", "Get Health", "Check RPC health status", false, 120⟩
    "MCP request timed out after 30000ms"
    (fun _ => .failure (.mcp (McpTimeoutError "MCP request timed out after 30000ms")))
    rfl (fun n => rfl) (by norm_num)
  exact ⟨h.1, h.2.1, h.2.2.2.1⟩
